import Mathlib

set_option linter.unusedVariables false
set_option linter.unusedTactic false

/-!
Shallow embedding of crossfont's DirectWrite backend (src/directwrite/mod.rs).

The DirectWrite/dwrote platform capabilities (COM factory, glyph-run analysis,
font collection, system fallback, locale query) are modelled as explicit
structures of functions, following spec section 6 which treats them as
black-box capabilities.  Machine floating-point arithmetic (f32/f64) is
modelled exactly over ℚ.  Crossfont core types that live in the crate root
(not under src/) are modelled from the spec where noted.
-/

deriving instance DecidableEq for Except

/-- Modelled from the spec: font weight of a description (crossfont core type,
not under src/); constructors match the From impl in mod.rs lines 392-399. -/
inductive Weight where
  | normal
  | bold
deriving DecidableEq

/-- Modelled from the spec: slant of a description (crossfont core type, not
under src/); constructors match the From impl in mod.rs lines 401-409. -/
inductive Slant where
  | normal
  | italic
  | oblique
deriving DecidableEq

/-- Modelled from the spec: style of a font description, either a
weight/slant description or an exact face name (spec section 3). -/
inductive Style where
  | description (weight : Weight) (slant : Slant)
  | specific (style : String)
deriving DecidableEq

/-- Modelled from the spec: a font description, the identity key for cache
lookup, compared by value (spec section 3). -/
structure FontDesc where
  name : String
  style : Style
deriving DecidableEq

/-- Modelled from the spec: opaque, monotonically-increasing font identifier
(spec section 3); represented by the value of the issuing counter. -/
abbrev FontKey := Nat

/-- Modelled from the spec: a pixel size value, convertible to a
floating-point em size (spec section 3); the conversion is the identity in
this exact-arithmetic model. -/
structure Size where
  px : ℚ
deriving DecidableEq

/-- The em size in pixels of a `Size` (models `Size::as_px`). -/
def Size.as_px (s : Size) : ℚ := s.px

/-- Modelled from the spec: key of one glyph instance (spec section 3). -/
structure GlyphKey where
  font_key : FontKey
  character : Char
  size : Size
deriving DecidableEq

/-- Modelled from the spec: pixel buffer of a rasterized glyph, either an
RGB or an RGBA byte buffer (crossfont core type, not under src/; only the
RGB arm is produced by this backend). -/
inductive BitmapBuffer where
  | rgb (bytes : List ℕ)
  | rgba (bytes : List ℕ)
deriving DecidableEq

/-- Modelled from the spec: a rasterized glyph (spec section 3). -/
structure RasterizedGlyph where
  character : Char
  width : ℤ
  height : ℤ
  top : ℤ
  left : ℤ
  advance : ℤ × ℤ
  buffer : BitmapBuffer
deriving DecidableEq

/-- Modelled from the spec: the error taxonomy of spec section 7
(crossfont core type, not under src/). -/
inductive Error where
  | fontNotFound (desc : FontDesc)
  | unknownFontKey
  | metricsNotFound
  | missingGlyph (glyph : RasterizedGlyph)
  | platformError (message : String)
deriving DecidableEq

/-- Modelled from the spec: pixel-space line metrics for one size
(spec section 3). -/
structure Metrics where
  descent : ℚ
  average_advance : ℚ
  line_height : ℚ
  underline_position : ℚ
  underline_thickness : ℚ
  strikeout_position : ℚ
  strikeout_thickness : ℚ
deriving DecidableEq

/-- Modelled from the spec: the process-wide rendering mode enumeration
(spec section 3). -/
inductive RenderingMode where
  | aliased
  | grayscale
  | subpixel
deriving DecidableEq

/-- DirectWrite font weight as carried by dwrote font handles; only the two
values produced by the From impl are distinguished, other platform weights
are collapsed into `other`. -/
inductive FontWeight where
  | regular
  | bold
  | other (value : ℕ)
deriving DecidableEq

/-- DirectWrite font style as carried by dwrote font handles. -/
inductive FontStyle where
  | normal
  | oblique
  | italic
deriving DecidableEq

/-- DirectWrite font stretch as carried by dwrote font handles. -/
inductive FontStretch where
  | normal
  | other (value : ℕ)
deriving DecidableEq

/-- From impl for Weight (mod.rs lines 392-399). -/
def fontWeightFrom : Weight → FontWeight
  | Weight.bold => FontWeight.bold
  | Weight.normal => FontWeight.regular

/-- From impl for Slant (mod.rs lines 401-409). -/
def fontStyleFrom : Slant → FontStyle
  | Slant.oblique => FontStyle.oblique
  | Slant.italic => FontStyle.italic
  | Slant.normal => FontStyle.normal

/-- Per-face global design-unit metrics returned by the design-unit metrics
capability (DWRITE_FONT_METRICS; unsigned fields are ℕ, signed ones ℤ). -/
structure DWriteFontMetrics where
  designUnitsPerEm : ℕ
  ascent : ℕ
  descent : ℕ
  lineGap : ℤ
  underlinePosition : ℤ
  underlineThickness : ℕ
  strikethroughPosition : ℤ
  strikethroughThickness : ℕ
deriving DecidableEq

/-- Per-glyph design-unit metrics (DWRITE_GLYPH_METRICS; only the advance
width is consumed by the source). -/
structure GlyphMetrics where
  advanceWidth : ℕ
deriving DecidableEq

/-- An opaque native font face handle, modelled by the three capabilities the
source calls on it: global metrics, glyph-index lookup and per-glyph design
metrics.  The fallible platform calls return `Except Int` carrying an
HRESULT on failure. -/
structure FontFace where
  fontMetrics : DWriteFontMetrics
  glyphIndices : List ℕ → Except Int (List ℕ)
  designGlyphMetrics : List ℕ → Bool → Except Int (List GlyphMetrics)

/-- A dwrote font handle as produced by matching or fallback: carries its
face name, family name, weight/style/stretch, and the face it creates. -/
structure DwFont where
  faceName : String
  familyName : String
  weight : FontWeight
  style : FontStyle
  stretch : FontStretch
  fontFace : FontFace

/-- Cached DirectWrite font (struct Font, mod.rs lines 72-79). -/
structure Font where
  face : FontFace
  family_name : String
  weight : FontWeight
  style : FontStyle
  stretch : FontStretch

/-- From impl for dwrote fonts (mod.rs lines 380-390). -/
def Font.fromDw (font : DwFont) : Font :=
  { face := font.fontFace
    family_name := font.familyName
    weight := font.weight
    style := font.style
    stretch := font.stretch }

/-- A font family of the system collection: best-match selection and indexed
face enumeration, as consumed by load_font. -/
structure FontFamily where
  firstMatchingFont : FontWeight → FontStretch → FontStyle → Except Int DwFont
  getFontCount : ℕ
  font : ℕ → Except Int DwFont

/-- The system font collection capability (spec section 6). -/
structure FontCollection where
  fontFamilyByName : String → Except Int (Option FontFamily)

/-- Result of the system fallback mapping call (dwrote map_characters; only
the mapped font is consumed by the source). -/
structure MapCharactersResult where
  mapped_font : Option DwFont

/-- The optional system fallback-font-mapping capability (spec section 6).
Arguments mirror the map_characters call in mod.rs lines 224-233: locale and
UTF-16 code units of the analysis source, text position, length, collection,
base family hint, and the primary font's weight/style/stretch. -/
structure FontFallback where
  mapCharacters : String → List ℕ → ℕ → ℕ → FontCollection → Option String →
    FontWeight → FontStyle → FontStretch → MapCharactersResult

/-- DWRITE_RENDERING_MODE1 values used by the source. -/
inductive RenderingMode1 where
  | aliased
  | naturalSymmetric
deriving DecidableEq

/-- DWRITE_MEASURING_MODE values used by the source. -/
inductive MeasuringMode where
  | gdiClassic
  | natural
deriving DecidableEq

/-- DWRITE_TEXT_ANTIALIAS_MODE values used by the source. -/
inductive AntialiasMode where
  | grayscale
  | cleartype
deriving DecidableEq

/-- DWRITE_TEXTURE types used by the source. -/
inductive TextureType where
  | aliased1x1
  | cleartype3x1
deriving DecidableEq

/-- Channels per sample position of a texture layout: 1 for the aliased
single-channel layout, 3 for the ClearType RGB layout. -/
def TextureType.channels : TextureType → ℕ
  | TextureType.aliased1x1 => 1
  | TextureType.cleartype3x1 => 3

/-- The parameter block handed to CreateGlyphRunAnalysis (rendering mode,
measuring mode, antialias mode, grid-fit flag). -/
structure RenderParams where
  renderingMode1 : RenderingMode1
  measuringMode : MeasuringMode
  antialiasMode : AntialiasMode
  gridFitMode : Bool
deriving DecidableEq

/-- A single-glyph run (DWRITE_GLYPH_RUN, mod.rs lines 100-109); the advance,
offset, sideways and bidi fields are the constants the source always uses. -/
structure GlyphRun where
  fontFace : FontFace
  fontEmSize : ℚ
  glyphCount : ℕ := 1
  glyphIndex : ℕ
  glyphAdvance : ℚ := 0
  isSideways : Bool := false
  bidiLevel : ℕ := 0

/-- Bounding box returned by GetAlphaTextureBounds. -/
structure TextureBounds where
  left : ℤ
  top : ℤ
  right : ℤ
  bottom : ℤ
deriving DecidableEq

/-- Pixel area of a texture bounding box. -/
def TextureBounds.area (b : TextureBounds) : ℕ :=
  ((b.right - b.left) * (b.bottom - b.top)).toNat

/-- A glyph-run analysis object: bounds query, texture-creation status, and
the texture sample stream per texture type. -/
structure GlyphAnalysis where
  getAlphaTextureBounds : TextureType → Except Int TextureBounds
  textureStatus : TextureType → TextureBounds → Except Int Unit
  sample : TextureType → ℕ → ℕ

/-- The flat sample list of a texture: `area` samples for the 1-channel
layout, `3 * area` for the 3-channel layout. -/
def texSamples (a : GlyphAnalysis) (t : TextureType) (b : TextureBounds) : List ℕ :=
  (List.range (b.area * t.channels)).map (a.sample t)

/-- Models the DirectWrite CreateAlphaTexture capability (spec section 6):
on success the buffer holds width * height samples for the single-channel
layout and 3 * width * height samples for the 3-channel RGB layout. -/
def GlyphAnalysis.createAlphaTexture (a : GlyphAnalysis) (t : TextureType)
    (b : TextureBounds) : Except Int (List ℕ) :=
  match a.textureStatus t b with
  | Except.error hr => Except.error hr
  | Except.ok _ => Except.ok (texSamples a t b)

/-- The process-wide platform capability bundle: IDWriteFactory3
availability, glyph-run analysis creation, and the user-locale query
(GetUserDefaultLocaleName). -/
structure Platform where
  hasFactory3 : Bool
  createGlyphRunAnalysis : GlyphRun → RenderParams → Except Int GlyphAnalysis
  locale : String

/-- From impl for HRESULT (mod.rs lines 436-441); the hexadecimal formatting
of the status code is abstracted to decimal. -/
def Error.fromHresult (hresult : Int) : Error :=
  Error.platformError ("a DirectWrite rendering error occurred: " ++ toString hresult)

/-- The rasterizer state (struct DirectWriteRasterizer, mod.rs lines 81-88);
the two hash maps are association lists, and `nextKey` models the counter
behind FontKey::next (crossfont core, not under src/: modelled from the
spec's "monotonically-increasing identifier ... never reused"). -/
structure DirectWriteRasterizer where
  fonts : List (FontKey × Font)
  keys : List (FontDesc × FontKey)
  availableFonts : FontCollection
  fallbackSequence : Option FontFallback
  renderingMode : RenderingMode
  gridFitting : Bool
  nextKey : ℕ

/-- A fresh rasterizer (Rasterize::new, mod.rs lines 240-249), parameterized
by the platform-provided collection and fallback sequence, the initial
rendering mode and the initial value of the key counter. -/
def DirectWriteRasterizer.new (collection : FontCollection)
    (fallback : Option FontFallback) (mode : RenderingMode) (n0 : ℕ) :
    DirectWriteRasterizer :=
  { fonts := []
    keys := []
    availableFonts := collection
    fallbackSequence := fallback
    renderingMode := mode
    gridFitting := false
    nextKey := n0 }

/-- First-match association-list lookup (models HashMap::get). -/
def assocLookup {α β : Type} [DecidableEq α] : List (α × β) → α → Option β
  | [], _ => none
  | e :: es, k => if e.1 = k then some e.2 else assocLookup es k

/-- UTF-16 encoding of one character (models char::encode_utf16). -/
def encodeUtf16 (c : Char) : List ℕ :=
  if c.toNat < 0x10000 then [c.toNat]
  else [0xD800 + (c.toNat - 0x10000) / 0x400, 0xDC00 + (c.toNat - 0x10000) % 0x400]

/-- DirectWrite uses 0 for missing glyph symbols (mod.rs line 70). -/
def MISSING_GLYPH_INDEX : ℕ := 0

/-- Glyph-index lookup (mod.rs lines 200-205): the platform call's failure
or an empty result collapses to the missing-glyph sentinel. -/
def get_glyph_index (face : FontFace) (character : Char) : ℕ :=
  (((face.glyphIndices [character.toNat]).toOption).bind List.head?).getD
    MISSING_GLYPH_INDEX

/-- Cache lookup by key (mod.rs lines 196-198). -/
def get_loaded_font (r : DirectWriteRasterizer) (font_key : FontKey) :
    Except Error Font :=
  match assocLookup r.fonts font_key with
  | some font => Except.ok font
  | none => Except.error Error.unknownFontKey

/-- Fallback resolution (mod.rs lines 207-236): consults the optional system
fallback sequence with a single-character locale-tagged run and the primary
font's family/weight/style/stretch. -/
def get_fallback_font (p : Platform) (r : DirectWriteRasterizer)
    (loaded_font : Font) (character : Char) : Option DwFont :=
  match r.fallbackSequence with
  | none => none
  | some fallback =>
    let utf16_codepoints := encodeUtf16 character
    let length := utf16_codepoints.length
    let locale := p.locale
    (fallback.mapCharacters locale utf16_codepoints 0 length r.availableFonts
      (some loaded_font.family_name) loaded_font.weight loaded_font.style
      loaded_font.stretch).mapped_font

/-- The rendering-parameter triple selected from the rendering mode together
with the grid-fit flag (mod.rs lines 111-133). -/
def analysisParams (mode : RenderingMode) (gridFitting : Bool) : RenderParams :=
  match mode with
  | RenderingMode.aliased =>
    { renderingMode1 := RenderingMode1.aliased
      measuringMode := MeasuringMode.gdiClassic
      antialiasMode := AntialiasMode.grayscale
      gridFitMode := gridFitting }
  | RenderingMode.grayscale =>
    { renderingMode1 := RenderingMode1.naturalSymmetric
      measuringMode := MeasuringMode.natural
      antialiasMode := AntialiasMode.grayscale
      gridFitMode := gridFitting }
  | RenderingMode.subpixel =>
    { renderingMode1 := RenderingMode1.naturalSymmetric
      measuringMode := MeasuringMode.natural
      antialiasMode := AntialiasMode.cleartype
      gridFitMode := gridFitting }

/-- The texture layout selected from the rendering mode (mod.rs
lines 158-161). -/
def textureTypeFor : RenderingMode → TextureType
  | RenderingMode.subpixel => TextureType.cleartype3x1
  | _ => TextureType.aliased1x1

/-- Expansion of a single-channel alpha buffer into three identical channels
per sample (mod.rs lines 175-180). -/
def rgbExpand (raw : List ℕ) : List ℕ :=
  raw.flatMap (fun alpha => [alpha, alpha, alpha])

/-- Glyph rasterization (mod.rs lines 91-194): builds a single-glyph run,
selects rendering parameters from the mode, obtains bounds and raw texture
from the platform analysis capability, and produces a RasterizedGlyph whose
buffer is channel-expanded for single-channel layouts and passed through for
the subpixel layout. -/
def rasterize_glyph (p : Platform) (r : DirectWriteRasterizer) (face : FontFace)
    (size : Size) (character : Char) (glyph_index : ℕ) :
    Except Error RasterizedGlyph :=
  let em_size := size.as_px
  let glyph_run : GlyphRun := { fontFace := face, fontEmSize := em_size, glyphIndex := glyph_index }
  if p.hasFactory3 = false then
    Except.error (Error.platformError "IDWriteFactory3 not available")
  else
    match p.createGlyphRunAnalysis glyph_run (analysisParams r.renderingMode r.gridFitting) with
    | Except.error hr => Except.error (Error.fromHresult hr)
    | Except.ok glyph_analysis =>
      let texture_type := textureTypeFor r.renderingMode
      match glyph_analysis.getAlphaTextureBounds texture_type with
      | Except.error hr => Except.error (Error.fromHresult hr)
      | Except.ok bounds =>
        match glyph_analysis.createAlphaTexture texture_type bounds with
        | Except.error hr => Except.error (Error.fromHresult hr)
        | Except.ok raw_buffer =>
          let buffer := match r.renderingMode with
            | RenderingMode.subpixel => BitmapBuffer.rgb raw_buffer
            | _ => BitmapBuffer.rgb (rgbExpand raw_buffer)
          Except.ok
            { character := character
              width := bounds.right - bounds.left
              height := bounds.bottom - bounds.top
              top := -bounds.top
              left := bounds.left
              advance := (0, 0)
              buffer := buffer }

/-- Metrics computation (mod.rs lines 259-310). -/
def metrics (r : DirectWriteRasterizer) (key : FontKey) (size : Size) :
    Except Error Metrics :=
  match get_loaded_font r key with
  | Except.error e => Except.error e
  | Except.ok font =>
    let face := font.face
    let vmetrics := face.fontMetrics
    let scale : ℚ := size.as_px / (vmetrics.designUnitsPerEm : ℚ)
    let underline_position := (vmetrics.underlinePosition : ℚ) * scale
    let underline_thickness := (vmetrics.underlineThickness : ℚ) * scale
    let strikeout_position := (vmetrics.strikethroughPosition : ℚ) * scale
    let strikeout_thickness := (vmetrics.strikethroughThickness : ℚ) * scale
    let ascent := (vmetrics.ascent : ℚ) * scale
    let descent := -(vmetrics.descent : ℚ) * scale
    let line_gap := (vmetrics.lineGap : ℚ) * scale
    let line_height := ascent - descent + line_gap
    let character := '!'
    let glyph_index := get_glyph_index face character
    match face.designGlyphMetrics [glyph_index] false with
    | Except.error _ => Except.error Error.metricsNotFound
    | Except.ok glyph_metrics =>
      match glyph_metrics.head? with
      | none => Except.error Error.metricsNotFound
      | some hmetrics =>
        let average_advance := (hmetrics.advanceWidth : ℚ) * scale
        Except.ok
          { descent := descent
            average_advance := average_advance
            line_height := line_height
            underline_position := underline_position
            underline_thickness := underline_thickness
            strikeout_position := strikeout_position
            strikeout_thickness := strikeout_thickness }

/-- Font loading (mod.rs lines 312-349): fast path on a seen description,
otherwise family lookup and best-match or exact-face-name selection, then
insertion under a fresh key. -/
def load_font (r : DirectWriteRasterizer) (desc : FontDesc) (_size : Size) :
    Except Error FontKey × DirectWriteRasterizer :=
  match assocLookup r.keys desc with
  | some key => (Except.ok key, r)
  | none =>
    match (r.availableFonts.fontFamilyByName desc.name).toOption.join with
    | none => (Except.error (Error.fontNotFound desc), r)
    | some family =>
      let fontResult : Except Error DwFont :=
        match desc.style with
        | Style.description weight slant =>
          match family.firstMatchingFont (fontWeightFrom weight) FontStretch.normal
              (fontStyleFrom slant) with
          | Except.ok f => Except.ok f
          | Except.error _ => Except.error (Error.fontNotFound desc)
        | Style.specific style =>
          match (List.range family.getFontCount).findSome?
              (fun idx => Option.filter (fun f => f.faceName == style)
                (family.font idx).toOption) with
          | some f => Except.ok f
          | none => Except.error (Error.fontNotFound desc)
      match fontResult with
      | Except.error e => (Except.error e, r)
      | Except.ok font =>
        let key := r.nextKey
        (Except.ok key,
          { r with
            keys := (desc, key) :: r.keys
            fonts := (key, Font.fromDw font) :: r.fonts
            nextKey := r.nextKey + 1 })

/-- The font/index selection of get_glyph (mod.rs lines 354-363): when the
primary face lacks the glyph, one fallback resolution is attempted and, if a
fallback font is found, it is converted into a transient loaded font and its
own index for the character is used. -/
def resolveFallback (p : Platform) (r : DirectWriteRasterizer)
    (loaded_font : Font) (character : Char) : Font × ℕ :=
  let glyph_index := get_glyph_index loaded_font.face character
  if glyph_index = MISSING_GLYPH_INDEX then
    match get_fallback_font p r loaded_font character with
    | some fallback_font =>
      let loaded_fallback_font := Font.fromDw fallback_font
      (loaded_fallback_font, get_glyph_index loaded_fallback_font.face character)
    | none => (loaded_font, glyph_index)
  else
    (loaded_font, glyph_index)

/-- Glyph retrieval (mod.rs lines 351-373).  The Rust method takes the
rasterizer by mutable reference but never mutates it; the returned state is
the translation of that reference at return. -/
def get_glyph (p : Platform) (r : DirectWriteRasterizer) (glyph : GlyphKey) :
    Except Error RasterizedGlyph × DirectWriteRasterizer :=
  match get_loaded_font r glyph.font_key with
  | Except.error e => (Except.error e, r)
  | Except.ok loaded_font =>
    match resolveFallback p r loaded_font glyph.character with
    | (font, glyph_index) =>
      match rasterize_glyph p r font.face glyph.size glyph.character glyph_index with
      | Except.error e => (Except.error e, r)
      | Except.ok rasterized_glyph =>
        if glyph_index = MISSING_GLYPH_INDEX then
          (Except.error (Error.missingGlyph rasterized_glyph), r)
        else
          (Except.ok rasterized_glyph, r)

/-- Kerning (mod.rs lines 375-377): this backend always returns (0, 0). -/
def kerning (_left _right : GlyphKey) : ℚ × ℚ := (0, 0)

/-- Folding a sequence of load_font calls over the rasterizer state. -/
def runLoads : DirectWriteRasterizer → List (FontDesc × Size) → DirectWriteRasterizer
  | r, [] => r
  | r, d :: ds => runLoads (load_font r d.1 d.2).2 ds

/-- The keys issued (returned with Ok) along a sequence of load_font calls. -/
def issuedKeys : DirectWriteRasterizer → List (FontDesc × Size) → List FontKey
  | _, [] => []
  | r, d :: ds =>
    match load_font r d.1 d.2 with
    | (Except.ok k, r') => k :: issuedKeys r' ds
    | (Except.error _, r') => issuedKeys r' ds

/-- Cache well-formedness: every cached key is below the issuing counter and
distinct descriptions hold distinct keys. -/
def INV (r : DirectWriteRasterizer) : Prop :=
  (∀ e ∈ r.keys, e.2 < r.nextKey) ∧
    r.keys.Pairwise (fun a b => a.2 ≠ b.2)

/-- The reference-glyph design metrics cannot be retrieved: the platform call
fails or returns no entry. -/
def designMetricsUnavailable : Except Int (List GlyphMetrics) → Prop
  | Except.error _ => True
  | Except.ok gms => gms = []

/-- Concrete design-unit metrics for witnesses: units-per-em 16, so pixel
size 16 gives scale 1. -/
def testVMetrics : DWriteFontMetrics :=
  { designUnitsPerEm := 16
    ascent := 10
    descent := 4
    lineGap := 2
    underlinePosition := -3
    underlineThickness := 1
    strikethroughPosition := 5
    strikethroughThickness := 1 }

/-- Concrete reference-glyph metrics for witnesses. -/
def testGM : GlyphMetrics := { advanceWidth := 8 }

/-- A concrete face that maps every character to glyph index 3. -/
def testFace : FontFace :=
  { fontMetrics := testVMetrics
    glyphIndices := fun l => Except.ok (l.map (fun _ => 3))
    designGlyphMetrics := fun l _ => Except.ok (l.map (fun _ => testGM)) }

/-- A concrete face whose glyph table lacks every character. -/
def noGlyphFace : FontFace :=
  { testFace with glyphIndices := fun l => Except.ok (l.map (fun _ => 0)) }

/-- A concrete face whose platform glyph-index call fails. -/
def errFace : FontFace :=
  { testFace with glyphIndices := fun _ => Except.error (-1) }

/-- A concrete face whose design-glyph-metrics call fails. -/
def badMetricsFace : FontFace :=
  { testFace with designGlyphMetrics := fun _ _ => Except.error (-1) }

/-- A concrete face with zero vertical extent (ascent, descent and line gap
all zero in design units). -/
def flatFace : FontFace :=
  { testFace with
    fontMetrics :=
      { designUnitsPerEm := 1000
        ascent := 0
        descent := 0
        lineGap := 0
        underlinePosition := 0
        underlineThickness := 0
        strikethroughPosition := 0
        strikethroughThickness := 0 } }

/-- A concrete dwrote font handle over a given face. -/
def testDwFont (name : String) (face : FontFace) : DwFont :=
  { faceName := name
    familyName := name
    weight := FontWeight.regular
    style := FontStyle.normal
    stretch := FontStretch.normal
    fontFace := face }

/-- A concrete collection resolving every family name to a one-face family
over `testFace`. -/
def testCollection : FontCollection :=
  { fontFamilyByName := fun n => Except.ok (some
      { firstMatchingFont := fun _ _ _ => Except.ok (testDwFont n testFace)
        getFontCount := 1
        font := fun _ => Except.ok (testDwFont n testFace) }) }

/-- A concrete collection with no families. -/
def emptyCollection : FontCollection :=
  { fontFamilyByName := fun _ => Except.ok none }

/-- A concrete fallback capability always mapping to a font over
`testFace`. -/
def testFallback : FontFallback :=
  { mapCharacters := fun _ _ _ _ _ _ _ _ _ =>
      { mapped_font := some (testDwFont "Fallback" testFace) } }

/-- A concrete one-pixel texture bounding box. -/
def testBounds : TextureBounds := { left := 0, top := 0, right := 1, bottom := 1 }

/-- A concrete glyph analysis with constant alpha 9 over `testBounds`. -/
def testAnalysis : GlyphAnalysis :=
  { getAlphaTextureBounds := fun _ => Except.ok testBounds
    textureStatus := fun _ _ => Except.ok ()
    sample := fun _ _ => 9 }

/-- A concrete platform whose analysis capability always succeeds. -/
def okPlatform : Platform :=
  { hasFactory3 := true
    createGlyphRunAnalysis := fun _ _ => Except.ok testAnalysis
    locale := "en-US" }

/-- A concrete platform without the IDWriteFactory3 capability. -/
def noFactoryPlatform : Platform :=
  { hasFactory3 := false
    createGlyphRunAnalysis := fun _ _ => Except.error (-1)
    locale := "en-US" }

/-- A concrete description. -/
def testDesc : FontDesc :=
  { name := "Test", style := Style.description Weight.normal Slant.normal }

/-- A second, distinct concrete description. -/
def testDesc2 : FontDesc :=
  { name := "Other", style := Style.description Weight.bold Slant.italic }

/-- A concrete rasterizer state holding `testFace` under key 0. -/
def testRast : DirectWriteRasterizer :=
  { fonts := [(0, Font.fromDw (testDwFont "Test" testFace))]
    keys := [(testDesc, 0)]
    availableFonts := testCollection
    fallbackSequence := none
    renderingMode := RenderingMode.grayscale
    gridFitting := false
    nextKey := 1 }

/-- A concrete rasterizer whose loaded face lacks every glyph but whose
fallback capability finds a substitute. -/
def missGlyphRast : DirectWriteRasterizer :=
  { testRast with
    fonts := [(0, Font.fromDw (testDwFont "Miss" noGlyphFace))]
    fallbackSequence := some testFallback }

/-- A concrete rasterizer whose loaded face's glyph-index call fails, with
no fallback available. -/
def errRast : DirectWriteRasterizer :=
  { testRast with fonts := [(0, Font.fromDw (testDwFont "Err" errFace))] }

/-- A concrete rasterizer whose loaded face's design-glyph-metrics call
fails. -/
def badMetricsRast : DirectWriteRasterizer :=
  { testRast with fonts := [(0, Font.fromDw (testDwFont "Bad" badMetricsFace))] }

/-- A concrete rasterizer holding the zero-vertical-extent face. -/
def flatRast : DirectWriteRasterizer :=
  { testRast with fonts := [(0, Font.fromDw (testDwFont "Flat" flatFace))] }

/-- The metrics of `testRast` at pixel size 16 (scale 1). -/
def testM : Metrics :=
  { descent := -4
    average_advance := 8
    line_height := 16
    underline_position := -3
    underline_thickness := 1
    strikeout_position := 5
    strikeout_thickness := 1 }

/-- The rasterized glyph produced by `okPlatform` for character A over
`testBounds` in an alpha-expanded mode. -/
def testGlyph : RasterizedGlyph :=
  { character := 'A'
    width := 1
    height := 1
    top := 0
    left := 0
    advance := (0, 0)
    buffer := BitmapBuffer.rgb [9, 9, 9] }

/-- The state after loading `testDesc` into a fresh rasterizer over
`testCollection`. -/
def c1r1 : DirectWriteRasterizer :=
  (load_font (DirectWriteRasterizer.new testCollection none RenderingMode.grayscale 0)
    testDesc { px := 16 }).2

/-- The state after further loading `testDesc2`. -/
def c8r2 : DirectWriteRasterizer := (load_font c1r1 testDesc2 { px := 16 }).2

/-! Helper lemmas. -/

lemma assocLookup_mem {α β : Type} [DecidableEq α] {l : List (α × β)} {k : α}
    {v : β} (h : assocLookup l k = some v) : (k, v) ∈ l := by
  induction l with
  | nil => exact absurd h (by simp [assocLookup])
  | cons e es ih =>
    obtain ⟨a, b⟩ := e
    unfold assocLookup at h
    by_cases he : a = k
    · simp only [he, if_pos] at h
      obtain rfl : b = v := by simpa using h
      subst he
      exact List.mem_cons_self _ _
    · simp only [he, if_neg, ite_false] at h
      exact List.mem_cons_of_mem _ (ih (by simpa [he] using h))

lemma assocLookup_cons_self {α β : Type} [DecidableEq α] {l : List (α × β)}
    {k : α} {v : β} : assocLookup ((k, v) :: l) k = some v := by
  simp [assocLookup]

lemma load_font_err {r r' : DirectWriteRasterizer} {d : FontDesc} {s : Size}
    {e : Error} (h : load_font r d s = (Except.error e, r')) : r' = r := by
  unfold load_font at h
  repeat' split at h
  all_goals first
    | exact (congrArg Prod.snd h).symm
    | (refine absurd h ?_
       simp
       done)

lemma load_font_ok_cases {r r' : DirectWriteRasterizer} {d : FontDesc}
    {s : Size} {k : FontKey} (h : load_font r d s = (Except.ok k, r')) :
    (assocLookup r.keys d = some k ∧ r' = r) ∨
    (assocLookup r.keys d = none ∧ k = r.nextKey ∧ ∃ f : Font,
      r' = { r with
        keys := (d, k) :: r.keys
        fonts := (k, f) :: r.fonts
        nextKey := r.nextKey + 1 }) := by
  unfold load_font at h
  split at h
  next key hk =>
    left
    have h1 : key = k := by simpa using congrArg Prod.fst h
    have h2 : r = r' := congrArg Prod.snd h
    exact ⟨h1 ▸ hk, h2.symm⟩
  next hk =>
    right
    refine ⟨hk, ?_⟩
    repeat' split at h
    all_goals (try dsimp only at h)
    all_goals first
      | (refine absurd h ?_
         simp
         done)
      | (have h1 : r.nextKey = k := by simpa using congrArg Prod.fst h
         have h2 := congrArg Prod.snd h
         dsimp only at h2
         subst h2
         refine ⟨h1.symm, ?_⟩
         rw [← h1]
         exact ⟨_, rfl⟩)

lemma load_font_INV {r : DirectWriteRasterizer} (d : FontDesc) (s : Size)
    (h : INV r) : INV (load_font r d s).2 := by
  rcases hres : load_font r d s with ⟨res, r'⟩
  dsimp only
  cases res with
  | error e => rw [load_font_err hres]; exact h
  | ok k =>
    rcases load_font_ok_cases hres with ⟨h1, rfl⟩ | ⟨h1, rfl, f, rfl⟩
    · exact h
    · constructor
      · intro e he
        rcases List.mem_cons.mp he with rfl | he'
        · exact Nat.lt_succ_self _
        · exact Nat.lt_succ_of_lt (h.1 e he')
      · refine List.Pairwise.cons ?_ h.2
        intro b hb hc
        have hlt : b.2 < r.nextKey := h.1 b hb
        have heqk : r.nextKey = b.2 := hc
        exact absurd heqk (Nat.ne_of_gt hlt)

lemma metrics_eq {r : DirectWriteRasterizer} {key : FontKey} {font : Font}
    (size : Size) (hfont : get_loaded_font r key = Except.ok font) :
    metrics r key size =
      match font.face.designGlyphMetrics
          [get_glyph_index font.face '!'] false with
      | Except.error _ => Except.error Error.metricsNotFound
      | Except.ok glyph_metrics =>
        match glyph_metrics.head? with
        | none => Except.error Error.metricsNotFound
        | some hm =>
          Except.ok
            { descent := -(font.face.fontMetrics.descent : ℚ) *
                (size.as_px / (font.face.fontMetrics.designUnitsPerEm : ℚ))
              average_advance := (hm.advanceWidth : ℚ) *
                (size.as_px / (font.face.fontMetrics.designUnitsPerEm : ℚ))
              line_height := (font.face.fontMetrics.ascent : ℚ) *
                  (size.as_px / (font.face.fontMetrics.designUnitsPerEm : ℚ)) -
                -(font.face.fontMetrics.descent : ℚ) *
                  (size.as_px / (font.face.fontMetrics.designUnitsPerEm : ℚ)) +
                (font.face.fontMetrics.lineGap : ℚ) *
                  (size.as_px / (font.face.fontMetrics.designUnitsPerEm : ℚ))
              underline_position := (font.face.fontMetrics.underlinePosition : ℚ) *
                (size.as_px / (font.face.fontMetrics.designUnitsPerEm : ℚ))
              underline_thickness := (font.face.fontMetrics.underlineThickness : ℚ) *
                (size.as_px / (font.face.fontMetrics.designUnitsPerEm : ℚ))
              strikeout_position := (font.face.fontMetrics.strikethroughPosition : ℚ) *
                (size.as_px / (font.face.fontMetrics.designUnitsPerEm : ℚ))
              strikeout_thickness := (font.face.fontMetrics.strikethroughThickness : ℚ) *
                (size.as_px / (font.face.fontMetrics.designUnitsPerEm : ℚ)) } := by
  unfold metrics
  rw [hfont]

lemma get_glyph_snd (p : Platform) (r : DirectWriteRasterizer) (glyph : GlyphKey) :
    (get_glyph p r glyph).2 = r := by
  unfold get_glyph
  repeat' split
  all_goals rfl


lemma resolveFallback_hit {p : Platform} {r : DirectWriteRasterizer}
    {lf : Font} {c : Char}
    (hidx : get_glyph_index lf.face c ≠ MISSING_GLYPH_INDEX) :
    resolveFallback p r lf c = (lf, get_glyph_index lf.face c) := by
  simp only [resolveFallback]
  rw [if_neg hidx]

lemma resolveFallback_miss_none {p : Platform} {r : DirectWriteRasterizer}
    {lf : Font} {c : Char}
    (hidx : get_glyph_index lf.face c = MISSING_GLYPH_INDEX)
    (hfb : get_fallback_font p r lf c = none) :
    resolveFallback p r lf c = (lf, MISSING_GLYPH_INDEX) := by
  simp only [resolveFallback]
  rw [if_pos hidx, hfb, hidx]

lemma resolveFallback_miss_some {p : Platform} {r : DirectWriteRasterizer}
    {lf : Font} {c : Char} {fb : DwFont}
    (hidx : get_glyph_index lf.face c = MISSING_GLYPH_INDEX)
    (hfb : get_fallback_font p r lf c = some fb) :
    resolveFallback p r lf c =
      (Font.fromDw fb, get_glyph_index (Font.fromDw fb).face c) := by
  simp only [resolveFallback]
  rw [if_pos hidx, hfb]

lemma get_glyph_eval {p : Platform} {r : DirectWriteRasterizer} {glyph : GlyphKey}
    {loaded_font f : Font} {idx : ℕ} {g : RasterizedGlyph}
    (hfont : get_loaded_font r glyph.font_key = Except.ok loaded_font)
    (hres : resolveFallback p r loaded_font glyph.character = (f, idx))
    (hrast : rasterize_glyph p r f.face glyph.size glyph.character idx = Except.ok g) :
    get_glyph p r glyph =
      ((if idx = MISSING_GLYPH_INDEX then Except.error (Error.missingGlyph g)
        else Except.ok g), r) := by
  unfold get_glyph
  rw [hfont]
  dsimp only
  rw [hres]
  dsimp only
  rw [hrast]
  dsimp only
  by_cases hi : idx = MISSING_GLYPH_INDEX
  · rw [if_pos hi, if_pos hi]
  · rw [if_neg hi, if_neg hi]

lemma load_font_fonts_lookup {r : DirectWriteRasterizer} {d : FontDesc}
    {s : Size} {k : FontKey}
    (h : (assocLookup (load_font r d s).2.fonts k).isSome = true) :
    (assocLookup r.fonts k).isSome = true ∨ (load_font r d s).1 = Except.ok k := by
  rcases hres : load_font r d s with ⟨res, r'⟩
  rw [hres] at h
  dsimp only at h
  cases res with
  | error e => rw [load_font_err hres] at h; exact Or.inl h
  | ok k0 =>
    rcases load_font_ok_cases hres with ⟨h1, rfl⟩ | ⟨h1, rfl, f, rfl⟩
    · exact Or.inl h
    · by_cases hk : r.nextKey = k
      · right
        dsimp only
        rw [hk]
      · left
        simp [assocLookup, hk] at h
        exact h

lemma fonts_issued {k : FontKey} :
    ∀ (ds : List (FontDesc × Size)) (r : DirectWriteRasterizer),
    (assocLookup (runLoads r ds).fonts k).isSome = true →
    (assocLookup r.fonts k).isSome = true ∨ k ∈ issuedKeys r ds := by
  intro ds
  induction ds with
  | nil => intro r h; exact Or.inl h
  | cons d ds ih =>
    intro r h
    simp only [runLoads] at h
    rcases ih _ h with h' | h'
    · rcases load_font_fonts_lookup h' with h'' | h''
      · exact Or.inl h''
      · right
        simp only [issuedKeys]
        rcases hres : load_font r d.1 d.2 with ⟨res, r'⟩
        rw [hres] at h''
        dsimp only at h''
        subst h''
        exact List.mem_cons_self _ _
    · right
      simp only [issuedKeys]
      rcases hres : load_font r d.1 d.2 with ⟨res, r'⟩
      rw [hres] at h'
      dsimp only at h'
      cases res with
      | error e => exact h'
      | ok k0 => exact List.mem_cons_of_mem _ h'

lemma rgbExpand_length (l : List ℕ) : (rgbExpand l).length = 3 * l.length := by
  induction l with
  | nil => rfl
  | cons a l ih =>
    simp only [rgbExpand, List.flatMap_cons] at ih ⊢
    simp at ih ⊢
    omega

lemma texSamples_length (a : GlyphAnalysis) (t : TextureType) (b : TextureBounds) :
    (texSamples a t b).length = b.area * t.channels := by
  simp [texSamples]

/-! Claim theorems. -/

/-- Claim C1: load_font is idempotent — after a successful load of a
description, any repeated load of that description returns the same FontKey
with the state unchanged and without consulting the font-matching capability
(the font collection may be replaced arbitrarily without affecting the
result, so the capability is consulted at most once per description), and
the size argument plays no role in cache identity (load_font's result is
independent of the size argument at every state). -/
theorem load_font_idempotent {r r1 : DirectWriteRasterizer} {desc : FontDesc}
    {s : Size} {k : FontKey} (h : load_font r desc s = (Except.ok k, r1)) :
    (∀ (coll : FontCollection) (s' : Size),
      load_font { r1 with availableFonts := coll } desc s' =
        (Except.ok k, { r1 with availableFonts := coll })) ∧
    (∀ (r' : DirectWriteRasterizer) (d : FontDesc) (s1 s2 : Size),
      load_font r' d s1 = load_font r' d s2) := by
  constructor
  · intro coll s'
    have hk : assocLookup r1.keys desc = some k := by
      rcases load_font_ok_cases h with ⟨h1, rfl⟩ | ⟨h1, rfl, f, rfl⟩
      · exact h1
      · exact assocLookup_cons_self
    unfold load_font
    have hkeys : ({ r1 with availableFonts := coll } :
        DirectWriteRasterizer).keys = r1.keys := rfl
    rw [hkeys, hk]
  · intro r' d s1 s2
    rfl

/-- Witness for load_font_idempotent: a concrete successful load, after
which reloading with the collection replaced by an empty one and a
different size still returns key 0 with the state unchanged. -/
theorem load_font_idempotent_witness :
    load_font { c1r1 with availableFonts := emptyCollection } testDesc
        { px := 32 } =
      (Except.ok 0, { c1r1 with availableFonts := emptyCollection }) := by
  have h : load_font
      (DirectWriteRasterizer.new testCollection none RenderingMode.grayscale 0)
      testDesc { px := 16 } = (Except.ok 0, c1r1) := rfl
  exact (load_font_idempotent h).1 emptyCollection { px := 32 }

/-- Claim C7: for a key never issued by this rasterizer instance (not among
the keys returned by the load_font calls performed since construction),
metrics and get_glyph both return the UnknownFontKey error. -/
theorem unknown_key_safety (collection : FontCollection)
    (fallback : Option FontFallback) (mode : RenderingMode) (n0 : ℕ)
    (ds : List (FontDesc × Size)) (p : Platform) (k : FontKey) (c : Char)
    (s : Size)
    (h : k ∉ issuedKeys
      (DirectWriteRasterizer.new collection fallback mode n0) ds) :
    metrics (runLoads (DirectWriteRasterizer.new collection fallback mode n0) ds)
        k s = Except.error Error.unknownFontKey ∧
    (get_glyph p
        (runLoads (DirectWriteRasterizer.new collection fallback mode n0) ds)
        { font_key := k, character := c, size := s }).1 =
      Except.error Error.unknownFontKey := by
  have hnone : assocLookup
      (runLoads (DirectWriteRasterizer.new collection fallback mode n0) ds).fonts
      k = none := by
    cases hl : assocLookup
        (runLoads (DirectWriteRasterizer.new collection fallback mode n0) ds).fonts
        k with
    | none => rfl
    | some f =>
      rcases fonts_issued ds _ (by rw [hl]; rfl) with h' | h'
      · exact absurd h' (by simp [DirectWriteRasterizer.new, assocLookup])
      · exact absurd h' h
  have hglf : get_loaded_font
      (runLoads (DirectWriteRasterizer.new collection fallback mode n0) ds) k =
      Except.error Error.unknownFontKey := by
    unfold get_loaded_font
    rw [hnone]
  constructor
  · unfold metrics
    rw [hglf]
  · unfold get_glyph
    rw [hglf]

/-- Witness for unknown_key_safety: after loading one description into a
fresh rasterizer, key 7 was never issued and metrics on it reports
UnknownFontKey. -/
theorem unknown_key_safety_witness :
    (7 ∉ issuedKeys
      (DirectWriteRasterizer.new testCollection none RenderingMode.grayscale 0)
      [(testDesc, { px := 16 })]) ∧
    metrics (runLoads
        (DirectWriteRasterizer.new testCollection none RenderingMode.grayscale 0)
        [(testDesc, { px := 16 })]) 7 { px := 16 } =
      Except.error Error.unknownFontKey := by
  refine ⟨by decide, ?_⟩
  exact (unknown_key_safety testCollection none RenderingMode.grayscale 0
    [(testDesc, { px := 16 })] okPlatform 7 'x' { px := 16 } (by decide)).1

/-- Claim C8: two successive successful loads of distinct descriptions
return distinct keys, and when the second load is a cache miss its fresh key
strictly exceeds every key in the cache — including the first key — so keys
are monotonically increasing and never reused. -/
theorem load_font_key_uniqueness {r r1 r2 : DirectWriteRasterizer}
    {d1 d2 : FontDesc} {s1 s2 : Size} {k1 k2 : FontKey}
    (hinv : INV r) (hne : d1 ≠ d2)
    (h1 : load_font r d1 s1 = (Except.ok k1, r1))
    (h2 : load_font r1 d2 s2 = (Except.ok k2, r2)) :
    k1 ≠ k2 ∧
    (assocLookup r1.keys d2 = none →
      (∀ e ∈ r1.keys, e.2 < k2) ∧ k1 < k2) := by
  have hinv1 : INV r1 := by
    have h' := load_font_INV d1 s1 hinv
    rw [h1] at h'
    exact h'
  have hk1 : (d1, k1) ∈ r1.keys := by
    rcases load_font_ok_cases h1 with ⟨ha, rfl⟩ | ⟨ha, rfl, f, rfl⟩
    · exact assocLookup_mem ha
    · exact List.mem_cons_self _ _
  rcases load_font_ok_cases h2 with ⟨hb, rfl⟩ | ⟨hb, rfl, g, rfl⟩
  · have hk2 := assocLookup_mem hb
    constructor
    · have hne12 : ((d1, k1) : FontDesc × FontKey) ≠ (d2, k2) :=
        fun hc => hne (congrArg Prod.fst hc)
      exact List.Pairwise.forall
        (R := fun (a b : FontDesc × FontKey) => a.2 ≠ b.2)
        (fun x y hxy => hxy.symm) hinv1.2 hk1 hk2 hne12
    · intro hmiss
      rw [hb] at hmiss
      exact absurd hmiss (by simp)
  · constructor
    · exact Nat.ne_of_lt (hinv1.1 _ hk1)
    · intro hmiss
      exact ⟨hinv1.1, hinv1.1 _ hk1⟩

/-- Witness for load_font_key_uniqueness: loading two distinct descriptions
into a fresh rasterizer issues keys 0 and then 1. -/
theorem load_font_key_uniqueness_witness : (0 : FontKey) ≠ 1 ∧ (0 : FontKey) < 1 := by
  have hinv : INV (DirectWriteRasterizer.new testCollection none
      RenderingMode.grayscale 0) :=
    ⟨fun e he => absurd he (List.not_mem_nil e), List.Pairwise.nil⟩
  have h1 : load_font
      (DirectWriteRasterizer.new testCollection none RenderingMode.grayscale 0)
      testDesc { px := 16 } = (Except.ok 0, c1r1) := rfl
  have h2 : load_font c1r1 testDesc2 { px := 16 } = (Except.ok 1, c8r2) := rfl
  have h := load_font_key_uniqueness hinv (by decide) h1 h2
  exact ⟨h.1, (h.2 rfl).2⟩

/-- Claim C4: for a loaded face and a nonnegative size, metrics scales every
vertical design-unit metric (underline position/thickness, strikeout
position/thickness, ascent, descent, line gap) by
scale = size_px / design_units_per_em, negates descent so that descent ≤ 0,
and returns line_height = ascent - descent + line_gap. -/
theorem metrics_vertical_scaling {r : DirectWriteRasterizer} {key : FontKey}
    {font : Font} {size : Size} {m : Metrics}
    (hfont : get_loaded_font r key = Except.ok font) (hsize : 0 ≤ size.px)
    (hm : metrics r key size = Except.ok m) :
    m.underline_position = (font.face.fontMetrics.underlinePosition : ℚ) *
      (size.as_px / (font.face.fontMetrics.designUnitsPerEm : ℚ)) ∧
    m.underline_thickness = (font.face.fontMetrics.underlineThickness : ℚ) *
      (size.as_px / (font.face.fontMetrics.designUnitsPerEm : ℚ)) ∧
    m.strikeout_position = (font.face.fontMetrics.strikethroughPosition : ℚ) *
      (size.as_px / (font.face.fontMetrics.designUnitsPerEm : ℚ)) ∧
    m.strikeout_thickness = (font.face.fontMetrics.strikethroughThickness : ℚ) *
      (size.as_px / (font.face.fontMetrics.designUnitsPerEm : ℚ)) ∧
    m.descent = -(font.face.fontMetrics.descent : ℚ) *
      (size.as_px / (font.face.fontMetrics.designUnitsPerEm : ℚ)) ∧
    m.descent ≤ 0 ∧
    m.line_height = (font.face.fontMetrics.ascent : ℚ) *
        (size.as_px / (font.face.fontMetrics.designUnitsPerEm : ℚ)) -
      m.descent +
      (font.face.fontMetrics.lineGap : ℚ) *
        (size.as_px / (font.face.fontMetrics.designUnitsPerEm : ℚ)) := by
  rw [metrics_eq size hfont] at hm
  rcases hd : font.face.designGlyphMetrics [get_glyph_index font.face '!'] false
      with e | gms
  · rw [hd] at hm
    exact absurd hm (by simp)
  · rw [hd] at hm
    dsimp only at hm
    rcases hh : gms.head? with _ | hmx
    · rw [hh] at hm
      exact absurd hm (by simp)
    · rw [hh] at hm
      dsimp only at hm
      obtain rfl := Except.ok.inj hm
      refine ⟨rfl, rfl, rfl, rfl, rfl, ?_, rfl⟩
      have hscale : (0 : ℚ) ≤ size.as_px /
          (font.face.fontMetrics.designUnitsPerEm : ℚ) :=
        div_nonneg hsize (Nat.cast_nonneg _)
      have hd0 : (-(font.face.fontMetrics.descent : ℚ)) ≤ 0 :=
        neg_nonpos.mpr (Nat.cast_nonneg _)
      exact mul_nonpos_iff.mpr (Or.inr ⟨hd0, hscale⟩)

/-- Witness for metrics_vertical_scaling: concrete metrics at scale 1. -/
theorem metrics_vertical_scaling_witness :
    metrics testRast 0 { px := 16 } = Except.ok testM ∧ testM.descent ≤ 0 := by
  have hfont : get_loaded_font testRast 0 =
      Except.ok (Font.fromDw (testDwFont "Test" testFace)) := rfl
  have hm : metrics testRast 0 { px := 16 } = Except.ok testM := by
    rw [metrics_eq { px := 16 } hfont]
    norm_num [Font.fromDw, testDwFont, testFace, testVMetrics, testGM, testM,
      Size.as_px]
  exact ⟨hm, (metrics_vertical_scaling hfont (by norm_num) hm).2.2.2.2.2.1⟩

/-- Claim C5: for a loaded face, metrics returns MetricsNotFound exactly
when the design glyph metrics of the fixed reference character cannot be
retrieved (the platform call fails or returns no entry), and on success
average_advance is the design advance width of that single reference glyph
times the scale factor. -/
theorem metrics_average_advance_reference {r : DirectWriteRasterizer}
    {key : FontKey} {font : Font} {size : Size}
    (hfont : get_loaded_font r key = Except.ok font) :
    (metrics r key size = Except.error Error.metricsNotFound ↔
      designMetricsUnavailable
        (font.face.designGlyphMetrics [get_glyph_index font.face '!'] false)) ∧
    (∀ m : Metrics, metrics r key size = Except.ok m →
      ∃ gms hm,
        font.face.designGlyphMetrics [get_glyph_index font.face '!'] false =
          Except.ok gms ∧ gms.head? = some hm ∧
        m.average_advance = (hm.advanceWidth : ℚ) *
          (size.as_px / (font.face.fontMetrics.designUnitsPerEm : ℚ))) := by
  rw [metrics_eq size hfont]
  rcases hd : font.face.designGlyphMetrics [get_glyph_index font.face '!'] false
      with e | gms
  · constructor
    · simp [designMetricsUnavailable]
    · intro m hm
      exact absurd hm (by simp)
  · dsimp only
    rcases hh : gms.head? with _ | hmx
    · have hgms : gms = [] := by
        cases gms with
        | nil => rfl
        | cons a l => exact absurd hh (by simp)
      constructor
      · simp [designMetricsUnavailable, hgms]
      · intro m hm
        exact absurd hm (by simp)
    · constructor
      · dsimp only [designMetricsUnavailable]
        constructor
        · intro hcontra
          exact absurd hcontra (by simp)
        · intro hgms
          rw [hgms] at hh
          exact absurd hh (by simp)
      · intro m hm
        dsimp only at hm
        obtain rfl := Except.ok.inj hm
        exact ⟨gms, hmx, rfl, hh, rfl⟩

/-- Witness for metrics_average_advance_reference: a face whose design
glyph metrics call fails makes metrics report MetricsNotFound. -/
theorem metrics_average_advance_reference_witness :
    metrics badMetricsRast 0 { px := 16 } = Except.error Error.metricsNotFound := by
  have h := @metrics_average_advance_reference badMetricsRast 0
    (Font.fromDw (testDwFont "Bad" badMetricsFace)) { px := 16 } rfl
  exact h.1.mpr trivial

/-- The line height computed by metrics equals the face's total vertical
extent in design units times the scale factor. -/
lemma metrics_line_height_value {r : DirectWriteRasterizer} {key : FontKey}
    {font : Font} {size : Size} {m : Metrics}
    (hfont : get_loaded_font r key = Except.ok font)
    (hm : metrics r key size = Except.ok m) :
    m.line_height = ((font.face.fontMetrics.ascent : ℚ) +
        (font.face.fontMetrics.descent : ℚ) +
        (font.face.fontMetrics.lineGap : ℚ)) *
      (size.as_px / (font.face.fontMetrics.designUnitsPerEm : ℚ)) := by
  rw [metrics_eq size hfont] at hm
  rcases hd : font.face.designGlyphMetrics [get_glyph_index font.face '!'] false
      with e | gms
  · rw [hd] at hm
    exact absurd hm (by simp)
  · rw [hd] at hm
    dsimp only at hm
    rcases hh : gms.head? with _ | hmx
    · rw [hh] at hm
      exact absurd hm (by simp)
    · rw [hh] at hm
      dsimp only at hm
      obtain rfl := Except.ok.inj hm
      show (font.face.fontMetrics.ascent : ℚ) * _ - _ + _ = _
      ring

/-- Claim C9 (amended): for a fixed loaded face whose design-unit vertical
extent ascent + descent + line_gap is positive, line height is strictly
monotone in the pixel size. -/
theorem metrics_line_height_monotone {r : DirectWriteRasterizer}
    {key : FontKey} {font : Font} {s1 s2 : Size} {m1 m2 : Metrics}
    (hfont : get_loaded_font r key = Except.ok font)
    (hext : 0 < (font.face.fontMetrics.ascent : ℚ) +
      (font.face.fontMetrics.descent : ℚ) +
      (font.face.fontMetrics.lineGap : ℚ))
    (hupem : 0 < font.face.fontMetrics.designUnitsPerEm)
    (hs : s1.px < s2.px)
    (h1 : metrics r key s1 = Except.ok m1)
    (h2 : metrics r key s2 = Except.ok m2) :
    m1.line_height < m2.line_height := by
  rw [metrics_line_height_value hfont h1, metrics_line_height_value hfont h2]
  have hu : (0 : ℚ) < (font.face.fontMetrics.designUnitsPerEm : ℚ) :=
    Nat.cast_pos.mpr hupem
  have hdiv : s1.px / (font.face.fontMetrics.designUnitsPerEm : ℚ) <
      s2.px / (font.face.fontMetrics.designUnitsPerEm : ℚ) :=
    (div_lt_div_iff_of_pos_right hu).mpr hs
  exact mul_lt_mul_of_pos_left hdiv hext

/-- Counterexample to claim C9 as stated: a loadable face whose vertical
design metrics are all zero has equal (zero) line heights at sizes 1 and 2,
so line height is not strictly monotone for every loaded face. -/
theorem metrics_line_height_monotone_cex :
    metrics flatRast 0 { px := 1 } = Except.ok
      { descent := 0, average_advance := 1/125, line_height := 0,
        underline_position := 0, underline_thickness := 0,
        strikeout_position := 0, strikeout_thickness := 0 } ∧
    metrics flatRast 0 { px := 2 } = Except.ok
      { descent := 0, average_advance := 2/125, line_height := 0,
        underline_position := 0, underline_thickness := 0,
        strikeout_position := 0, strikeout_thickness := 0 } ∧
    ¬ (({ descent := 0, average_advance := 2/125, line_height := 0,
            underline_position := 0, underline_thickness := 0,
            strikeout_position := 0, strikeout_thickness := 0 } : Metrics).line_height >
          ({ descent := 0, average_advance := 1/125, line_height := 0,
             underline_position := 0, underline_thickness := 0,
             strikeout_position := 0, strikeout_thickness := 0 } : Metrics).line_height) := by
  have hfont : get_loaded_font flatRast 0 =
      Except.ok (Font.fromDw (testDwFont "Flat" flatFace)) := rfl
  refine ⟨?_, ?_, ?_⟩
  · rw [metrics_eq { px := 1 } hfont]
    norm_num [Font.fromDw, testDwFont, flatFace, testFace, testGM, Size.as_px]
  · rw [metrics_eq { px := 2 } hfont]
    norm_num [Font.fromDw, testDwFont, flatFace, testFace, testGM, Size.as_px]
  · norm_num

/-- Witness for metrics_line_height_monotone: line height 16 at size 16
against 32 at size 32 for the concrete test face. -/
theorem metrics_line_height_monotone_witness :
    testM.line_height <
      ({ descent := -8, average_advance := 16, line_height := 32,
          underline_position := -6, underline_thickness := 2,
          strikeout_position := 10, strikeout_thickness := 2 } : Metrics).line_height := by
  have hfont : get_loaded_font testRast 0 =
      Except.ok (Font.fromDw (testDwFont "Test" testFace)) := rfl
  have h1 : metrics testRast 0 { px := 16 } = Except.ok testM := by
    rw [metrics_eq { px := 16 } hfont]
    norm_num [Font.fromDw, testDwFont, testFace, testVMetrics, testGM, testM,
      Size.as_px]
  have h2 : metrics testRast 0 { px := 32 } = Except.ok
      { descent := -8, average_advance := 16, line_height := 32,
        underline_position := -6, underline_thickness := 2,
        strikeout_position := 10, strikeout_thickness := 2 } := by
    rw [metrics_eq { px := 32 } hfont]
    norm_num [Font.fromDw, testDwFont, testFace, testVMetrics, testGM,
      Size.as_px]
  exact metrics_line_height_monotone hfont
    (by norm_num [Font.fromDw, testDwFont, testFace, testVMetrics])
    (by norm_num [Font.fromDw, testDwFont, testFace, testVMetrics])
    (by norm_num) h1 h2

/-- Claim C3: when the rasterization of the finally selected glyph index
succeeds, get_glyph returns the dedicated MissingGlyph outcome carrying the
fully rasterized placeholder exactly when that final index is the missing
sentinel 0, and returns the rasterized glyph as a plain success whenever the
final index is non-zero; the state is unchanged either way. -/
theorem get_glyph_missing_outcome {p : Platform} {r : DirectWriteRasterizer}
    {glyph : GlyphKey} {loaded_font f : Font} {idx : ℕ} {g : RasterizedGlyph}
    (hfont : get_loaded_font r glyph.font_key = Except.ok loaded_font)
    (hres : resolveFallback p r loaded_font glyph.character = (f, idx))
    (hrast : rasterize_glyph p r f.face glyph.size glyph.character idx =
      Except.ok g) :
    get_glyph p r glyph =
      ((if idx = MISSING_GLYPH_INDEX then Except.error (Error.missingGlyph g)
        else Except.ok g), r) :=
  get_glyph_eval hfont hres hrast

/-- Witness for get_glyph_missing_outcome: a face holding the glyph at
index 3 yields a plain success with the state unchanged. -/
theorem get_glyph_missing_outcome_witness :
    get_glyph okPlatform testRast
        { font_key := 0, character := 'A', size := { px := 16 } } =
      ((if 3 = MISSING_GLYPH_INDEX then
          Except.error (Error.missingGlyph testGlyph)
        else Except.ok testGlyph), testRast) :=
  @get_glyph_missing_outcome okPlatform testRast
    { font_key := 0, character := 'A', size := { px := 16 } }
    (Font.fromDw (testDwFont "Test" testFace))
    (Font.fromDw (testDwFont "Test" testFace)) 3 testGlyph
    rfl rfl (by decide)

/-- Claim C10: glyph-index lookup is total and never surfaces a platform
error — a failing or empty platform glyph_indices call collapses to the
missing-glyph sentinel 0 — and downstream (with no fallback available and
the placeholder rasterization succeeding) such a face yields a MissingGlyph
outcome, not a PlatformError. -/
theorem get_glyph_index_total {face : FontFace} {c : Char}
    (hfail : (∃ e, face.glyphIndices [c.toNat] = Except.error e) ∨
      face.glyphIndices [c.toNat] = Except.ok []) :
    get_glyph_index face c = MISSING_GLYPH_INDEX ∧
    (∀ (p : Platform) (r : DirectWriteRasterizer) (key : FontKey) (lf : Font)
      (s : Size) (g : RasterizedGlyph),
      get_loaded_font r key = Except.ok lf → lf.face = face →
      r.fallbackSequence = none →
      rasterize_glyph p r face s c MISSING_GLYPH_INDEX = Except.ok g →
      (get_glyph p r { font_key := key, character := c, size := s }).1 =
        Except.error (Error.missingGlyph g)) := by
  have hidx : get_glyph_index face c = MISSING_GLYPH_INDEX := by
    unfold get_glyph_index
    rcases hfail with ⟨e, he⟩ | he
    · rw [he]
      rfl
    · rw [he]
      rfl
  refine ⟨hidx, ?_⟩
  intro p r key lf s g hfont hface hfb hrast
  have hidx' : get_glyph_index lf.face c = MISSING_GLYPH_INDEX := by
    rw [hface]
    exact hidx
  have hfbn : get_fallback_font p r lf c = none := by
    unfold get_fallback_font
    rw [hfb]
  have hres := resolveFallback_miss_none (p := p) (r := r) hidx' hfbn
  have hrast' : rasterize_glyph p r lf.face s c MISSING_GLYPH_INDEX =
      Except.ok g := by
    rw [hface]
    exact hrast
  have heval := @get_glyph_eval p r
    { font_key := key, character := c, size := s } lf lf MISSING_GLYPH_INDEX g
    hfont hres hrast'
  rw [heval]
  simp

/-- Witness for get_glyph_index_total: a face whose platform index lookup
fails maps to the sentinel and yields MissingGlyph downstream. -/
theorem get_glyph_index_total_witness :
    get_glyph_index errFace 'A' = MISSING_GLYPH_INDEX ∧
    (get_glyph okPlatform errRast
        { font_key := 0, character := 'A', size := { px := 16 } }).1 =
      Except.error (Error.missingGlyph testGlyph) := by
  have h := @get_glyph_index_total errFace 'A' (Or.inl ⟨-1, rfl⟩)
  exact ⟨h.1, h.2 okPlatform errRast 0 (Font.fromDw (testDwFont "Err" errFace))
    { px := 16 } testGlyph rfl rfl rfl (by decide)⟩

/-- The first component of get_glyph when the primary face holds the glyph:
the rasterization of the primary index, independent of fallback. -/
lemma get_glyph_hit_fst {p : Platform} {r : DirectWriteRasterizer}
    {glyph : GlyphKey} {lf : Font}
    (hfont : get_loaded_font r glyph.font_key = Except.ok lf)
    (hidx : get_glyph_index lf.face glyph.character ≠ MISSING_GLYPH_INDEX) :
    (get_glyph p r glyph).1 =
      match rasterize_glyph p r lf.face glyph.size glyph.character
          (get_glyph_index lf.face glyph.character) with
      | Except.error e => Except.error e
      | Except.ok g => Except.ok g := by
  have hres := resolveFallback_hit (p := p) (r := r) hidx
  unfold get_glyph
  rw [hfont]
  dsimp only
  rw [hres]
  dsimp only
  cases hc : rasterize_glyph p r lf.face glyph.size glyph.character
      (get_glyph_index lf.face glyph.character) with
  | error e => rfl
  | ok g =>
    dsimp only
    rw [if_neg hidx]

/-- Claim C2: fallback resolution in get_glyph happens only on a primary
miss — when the primary face holds the glyph the result does not depend on
the fallback capability at all — the resolved fallback font is never
inserted into the cache (the rasterizer state is returned unchanged), and
on a primary miss a single fallback resolution determines the outcome: no
fallback, or a fallback that also lacks the glyph, yields MissingGlyph, and
a fallback containing the glyph yields the plain success rasterized from
the fallback face, provided the platform rasterization call succeeds. -/
theorem get_glyph_fallback_resolution {p : Platform}
    {r : DirectWriteRasterizer} {glyph : GlyphKey} {loaded_font : Font}
    (hfont : get_loaded_font r glyph.font_key = Except.ok loaded_font) :
    (get_glyph p r glyph).2 = r ∧
    (get_glyph_index loaded_font.face glyph.character ≠ MISSING_GLYPH_INDEX →
      ∀ fb1 fb2 : Option FontFallback,
        (get_glyph p { r with fallbackSequence := fb1 } glyph).1 =
          (get_glyph p { r with fallbackSequence := fb2 } glyph).1) ∧
    (get_glyph_index loaded_font.face glyph.character = MISSING_GLYPH_INDEX →
      (∀ g, get_fallback_font p r loaded_font glyph.character = none →
        rasterize_glyph p r loaded_font.face glyph.size glyph.character
          MISSING_GLYPH_INDEX = Except.ok g →
        (get_glyph p r glyph).1 = Except.error (Error.missingGlyph g)) ∧
      (∀ fb g, get_fallback_font p r loaded_font glyph.character = some fb →
        rasterize_glyph p r (Font.fromDw fb).face glyph.size glyph.character
          (get_glyph_index (Font.fromDw fb).face glyph.character) =
          Except.ok g →
        (get_glyph p r glyph).1 =
          if get_glyph_index (Font.fromDw fb).face glyph.character =
              MISSING_GLYPH_INDEX
          then Except.error (Error.missingGlyph g)
          else Except.ok g)) := by
  refine ⟨get_glyph_snd p r glyph, ?_, ?_⟩
  · intro hidx fb1 fb2
    rw [get_glyph_hit_fst (r := { r with fallbackSequence := fb1 }) hfont hidx,
      get_glyph_hit_fst (r := { r with fallbackSequence := fb2 }) hfont hidx]
    rfl
  · intro hidx
    constructor
    · intro g hfb hrast
      have hres := resolveFallback_miss_none (p := p) (r := r) hidx hfb
      rw [get_glyph_eval hfont hres hrast]
      simp
    · intro fb g hfb hrast
      have hres := resolveFallback_miss_some (p := p) (r := r) hidx hfb
      rw [get_glyph_eval hfont hres hrast]

/-- Witness for get_glyph_fallback_resolution: a primary face lacking every
glyph together with a fallback that holds the glyph produces the fallback's
rasterization as a plain success. -/
theorem get_glyph_fallback_resolution_witness :
    get_glyph_index (Font.fromDw (testDwFont "Miss" noGlyphFace)).face 'A' =
      MISSING_GLYPH_INDEX ∧
    (get_glyph okPlatform missGlyphRast
        { font_key := 0, character := 'A', size := { px := 16 } }).1 =
      Except.ok testGlyph := by
  have h := @get_glyph_fallback_resolution okPlatform missGlyphRast
    { font_key := 0, character := 'A', size := { px := 16 } }
    (Font.fromDw (testDwFont "Miss" noGlyphFace)) rfl
  have h2 := (h.2.2 (by decide)).2 (testDwFont "Fallback" testFace) testGlyph
    rfl (by decide)
  refine ⟨by decide, ?_⟩
  rw [h2]
  decide

/-- Claim C6: under the Aliased and Grayscale modes each single-channel
alpha sample is expanded into 3 identical channels, giving a uniform RGB
buffer with exactly 3 bytes per alpha sample; under the Subpixel mode the
native 3-channel RGB samples pass through unchanged; and for the same
bounding box the subpixel buffer holds exactly 3 times as many samples as
the single-channel rasterization's alpha-sample count. -/
theorem rasterize_glyph_channel_layout {p : Platform}
    {r : DirectWriteRasterizer} {face : FontFace} {size : Size}
    {character : Char} {glyph_index : ℕ} {m1 : RenderingMode}
    {a1 a2 : GlyphAnalysis} {b : TextureBounds}
    (hm1 : m1 ≠ RenderingMode.subpixel)
    (hf : p.hasFactory3 = true)
    (h1 : p.createGlyphRunAnalysis
        { fontFace := face, fontEmSize := size.as_px, glyphIndex := glyph_index }
        (analysisParams m1 r.gridFitting) = Except.ok a1)
    (hb1 : a1.getAlphaTextureBounds TextureType.aliased1x1 = Except.ok b)
    (ht1 : a1.textureStatus TextureType.aliased1x1 b = Except.ok ())
    (h2 : p.createGlyphRunAnalysis
        { fontFace := face, fontEmSize := size.as_px, glyphIndex := glyph_index }
        (analysisParams RenderingMode.subpixel r.gridFitting) = Except.ok a2)
    (hb2 : a2.getAlphaTextureBounds TextureType.cleartype3x1 = Except.ok b)
    (ht2 : a2.textureStatus TextureType.cleartype3x1 b = Except.ok ()) :
    rasterize_glyph p { r with renderingMode := m1 } face size character
        glyph_index =
      Except.ok { character := character, width := b.right - b.left,
                  height := b.bottom - b.top, top := -b.top, left := b.left,
                  advance := (0, 0),
                  buffer := BitmapBuffer.rgb
                    (rgbExpand (texSamples a1 TextureType.aliased1x1 b)) } ∧
    (rgbExpand (texSamples a1 TextureType.aliased1x1 b)).length =
      3 * (texSamples a1 TextureType.aliased1x1 b).length ∧
    rasterize_glyph p { r with renderingMode := RenderingMode.subpixel } face
        size character glyph_index =
      Except.ok { character := character, width := b.right - b.left,
                  height := b.bottom - b.top, top := -b.top, left := b.left,
                  advance := (0, 0),
                  buffer :=
                    BitmapBuffer.rgb (texSamples a2 TextureType.cleartype3x1 b) } ∧
    (texSamples a2 TextureType.cleartype3x1 b).length =
      3 * (texSamples a1 TextureType.aliased1x1 b).length := by
  refine ⟨?_, rgbExpand_length _, ?_, ?_⟩
  · cases m1 with
    | subpixel => exact absurd rfl hm1
    | aliased =>
      unfold rasterize_glyph
      dsimp only
      rw [hf]
      rw [if_neg (by simp)]
      rw [h1]
      dsimp only [textureTypeFor]
      rw [hb1]
      dsimp only
      unfold GlyphAnalysis.createAlphaTexture
      rw [ht1]
    | grayscale =>
      unfold rasterize_glyph
      dsimp only
      rw [hf]
      rw [if_neg (by simp)]
      rw [h1]
      dsimp only [textureTypeFor]
      rw [hb1]
      dsimp only
      unfold GlyphAnalysis.createAlphaTexture
      rw [ht1]
  · unfold rasterize_glyph
    dsimp only
    rw [hf]
    rw [if_neg (by simp)]
    rw [h2]
    dsimp only [textureTypeFor]
    rw [hb2]
    dsimp only
    unfold GlyphAnalysis.createAlphaTexture
    rw [ht2]
  · rw [texSamples_length, texSamples_length]
    dsimp only [TextureType.channels]
    ring

/-- Witness for rasterize_glyph_channel_layout: for the one-pixel bounding
box the grayscale alpha buffer expands to 3 bytes and the subpixel buffer
holds 3 samples, 3 times the single alpha sample. -/
theorem rasterize_glyph_channel_layout_witness :
    (rgbExpand (texSamples testAnalysis TextureType.aliased1x1 testBounds)).length =
      3 * (texSamples testAnalysis TextureType.aliased1x1 testBounds).length ∧
    (texSamples testAnalysis TextureType.cleartype3x1 testBounds).length =
      3 * (texSamples testAnalysis TextureType.aliased1x1 testBounds).length := by
  have h := @rasterize_glyph_channel_layout okPlatform testRast testFace
    { px := 16 } 'A' 3 RenderingMode.grayscale testAnalysis testAnalysis
    testBounds (by decide) rfl rfl rfl rfl rfl rfl rfl
  exact ⟨h.2.1, h.2.2.2⟩

/-- Cache well-formedness holds in every state reachable from a fresh
rasterizer by load_font calls, so the hypothesis of the key-uniqueness
theorem is satisfied by every reachable state. -/
lemma runLoads_INV {r : DirectWriteRasterizer} (ds : List (FontDesc × Size))
    (h : INV r) : INV (runLoads r ds) := by
  induction ds generalizing r with
  | nil => exact h
  | cons d ds ih =>
    simp only [runLoads]
    exact ih (load_font_INV d.1 d.2 h)
